import Mathlib

/-!
Shallow embedding of `src/python/bridge.py`: a stdio bridge that decodes one
JSON request, dispatches to an action handler (fetch / search / extract /
screenshot / crawl / map / debug), and writes one response envelope.

External collaborators (the crawl4ai browser engine, the SearXNG HTTP backend,
the DDGS search library) are modelled by their observable outcomes: each
handler is embedded as a pure function from the collaborator outcomes it
consumes to the value it returns or the exception message it raises.
-/

namespace Bridge

/-! ## Response envelope (`respond`, bridge.py lines 26-33) -/

/-- The JSON response envelope `{"success": ..., "data"?: ..., "error"?: ...}`:
`data`/`error` are `none` when the corresponding key is absent from the emitted
JSON object. -/
structure Envelope (α : Type) where
  success : Bool
  data : Option α
  error : Option String
deriving DecidableEq

/-- `respond(success, data, error)`: includes `data` iff it is not `None`
(modelled by `Option`), and includes `error` iff it is truthy, i.e. present and
non-empty (`if error:` in Python). -/
def respond {α : Type} (success : Bool) (data : Option α) (error : Option String) :
    Envelope α :=
  ⟨success, data,
    match error with
    | some e => if e = "" then none else some e
    | none => none⟩

/-! ## Search handler (`search_action`, bridge.py lines 101-157) -/

/-- Normalized search result `{url, title, snippet}`. -/
structure SearchResult where
  url : String
  title : String
  snippet : String
deriving DecidableEq

/-- One item of the SearXNG JSON `results` array, with the string fields the
code reads via `item.get(..., "")` (absent keys already defaulted to `""`). -/
structure SearxItem where
  url : String
  title : String
  content : String
deriving DecidableEq

/-- One item yielded by `ddgs.text`, with the fields read via
`item.get(..., "")`. -/
structure DdgItem where
  href : String
  title : String
  body : String
deriving DecidableEq

/-- Tier-1 normalization (bridge.py lines 122-128). -/
def normSearx (i : SearxItem) : SearchResult := ⟨i.url, i.title, i.content⟩

/-- Tier-2 normalization (bridge.py lines 144-150). -/
def normDdg (i : DdgItem) : SearchResult := ⟨i.href, i.title, i.body⟩

/-- Outcome of the tier-1 (SearXNG) attempt: either an exception somewhere in
the `try` block (`exn p` records the items already appended to `results` before
the exception was raised; a transport error is `exn []`), or an HTTP response
with its status code and decoded `results` array. -/
inductive Tier1Outcome where
  | exn (partialItems : List SearxItem)
  | resp (status : Nat) (items : List SearxItem)
deriving DecidableEq

/-- Outcome of the tier-2 (DDGS) attempt: an exception anywhere in its `try`
block, or the full list of items the backend yields (the backend is passed
`max_results=limit`; the code performs no client-side truncation on tier 2). -/
inductive Tier2Outcome where
  | exn
  | ok (items : List DdgItem)
deriving DecidableEq

/-- The message of the exception raised when every backend failed
(bridge.py lines 155-157). -/
def searchErrorMsg : String :=
  "All search backends failed. Configure SEARXNG_URL or ensure ddgs is available."

/-- Result of the tier-1 block: either an early `return results`
(bridge.py line 130) or a fall-through carrying the accumulated `results`
list into the tier-2 block. -/
inductive Tier1Phase where
  | ret (results : List SearchResult)
  | fallthrough (acc : List SearchResult)
deriving DecidableEq

/-- The `if SEARXNG_URL:` block (bridge.py lines 107-132): skipped when the
URL is falsy; on HTTP 200 the first `limit` items are normalized and returned
iff non-empty; a non-200 status or an exception falls through (an exception
keeps any items appended before it was raised). -/
def tier1Phase (searxngURL : String) (t1 : Tier1Outcome) (limit : Nat) :
    Tier1Phase :=
  if searxngURL = "" then .fallthrough []
  else
    match t1 with
    | .exn partialItems => .fallthrough (partialItems.map normSearx)
    | .resp status items =>
        if status = 200 then
          let results := (items.take limit).map normSearx
          if results.isEmpty then .fallthrough results else .ret results
        else .fallthrough []

/-- `search_action` (bridge.py lines 101-157) as a function of the two backend
outcomes. Returns the handler's result (`Except.error` models the final
`raise`) paired with the number of times the tier-2 backend was attempted. -/
def search_action (searxngURL : String) (t1 : Tier1Outcome) (t2 : Tier2Outcome)
    (limit : Nat) : Except String (List SearchResult) × Nat :=
  match tier1Phase searxngURL t1 limit with
  | .ret results => (.ok results, 0)
  | .fallthrough results =>
      match t2 with
      | .ok items => (.ok (results ++ items.map normDdg), 1)
      | .exn => (.error searchErrorMsg, 1)

/-- A tier-1 failure in the sense of the spec: an exception (transport error
included), a non-200 status, or a 200 response whose normalized slice of the
first `limit` items is empty. -/
def tier1Failure (t1 : Tier1Outcome) (limit : Nat) : Prop :=
  (∃ p, t1 = .exn p) ∨
  (∃ s items, t1 = .resp s items ∧ s ≠ 200) ∨
  (∃ items, t1 = .resp 200 items ∧ items.take limit = [])

/-! ## Fetch handler (`fetch_action`, bridge.py lines 56-98) -/

/-- The engine result's `markdown` attribute: either an object carrying both a
raw and a cleaned markdown representation (the collaborator interface exposes
"raw/cleaned markdown"; the code probes `hasattr(result.markdown,
"raw_markdown")`), or a plain value that is stringified. The `cleaned_markdown`
field is modelled from the spec: the engine itself is an external collaborator
and only its result shape is specified. -/
inductive MarkdownVal where
  | objMd (raw_markdown : String) (cleaned_markdown : String)
  | strMd (s : String)
deriving DecidableEq

/-- The markdown normalization shared by `fetch_action` (lines 96-98) and
`crawl_action` (lines 287-291): `raw_markdown` when the attribute exists,
otherwise `str(markdown)`. -/
def mdNormalize : MarkdownVal → String
  | .objMd raw _ => raw
  | .strMd s => s

/-- A single-page engine result as consumed by `fetch_action`:
`error_message = ""` models a falsy/absent message (`result.error_message or
"Failed to fetch URL"`). -/
structure EngineResult where
  success : Bool
  error_message : String
  html : String
  raw_html : String
  markdown : MarkdownVal
deriving DecidableEq

/-- `fetch_action` (bridge.py lines 84-98) after the engine call: raises on
engine failure, else routes on `format` — `"html"` → `result.html`, `"raw"` →
`result.raw_html`, anything else → the normalized markdown. -/
def fetch_action (result : EngineResult) (format : String) :
    Except String String :=
  if result.success = false then
    .error (if result.error_message = "" then "Failed to fetch URL"
            else result.error_message)
  else if format = "html" then .ok result.html
  else if format = "raw" then .ok result.raw_html
  else .ok (mdNormalize result.markdown)

/-! ## Crawl handler (`crawl_action`, bridge.py lines 238-301) -/

/-- One streamed deep-crawl result: success flag, final URL, markdown value. -/
structure CrawlResult where
  success : Bool
  url : String
  markdown : MarkdownVal
deriving DecidableEq

/-- A normalized crawl page `{url, markdown}`. -/
structure CrawlPage where
  url : String
  markdown : String
deriving DecidableEq

/-- The `async for` loop of `crawl_action` (bridge.py lines 285-299) over the
streamed results: failed results are skipped; each successful result is
normalized and appended; after an append, `len(pages) >= max_pages` breaks the
loop. Returns the final `pages` list paired with the number of stream items
consumed from this point on. -/
def crawlLoop (max_pages : Nat) : List CrawlResult → List CrawlPage →
    List CrawlPage × Nat
  | [], pages => (pages, 0)
  | r :: rest, pages =>
      if r.success then
        let pages := pages ++ [⟨r.url, mdNormalize r.markdown⟩]
        if max_pages ≤ pages.length then (pages, 1)
        else
          let next := crawlLoop max_pages rest pages
          (next.1, next.2 + 1)
      else
        let next := crawlLoop max_pages rest pages
        (next.1, next.2 + 1)

/-- `crawl_action` (bridge.py lines 282-301) as a function of the streamed
sequence the engine would yield: the collected pages and the number of stream
items actually consumed. -/
def crawl_action (stream : List CrawlResult) (max_pages : Nat) :
    List CrawlPage × Nat :=
  crawlLoop max_pages stream []

/-! ## Map handler (`map_action`, bridge.py lines 304-346) -/

/-- Modelled from the spec: each internal link from the engine "may be
represented either as a bare URL or as a structure with an href and display
text" (the engine is an external collaborator); absent `text` is already
defaulted to `""` by `link.get("text", "")`. -/
inductive LinkVal where
  | dict (href text : String)
  | bare (url : String)
deriving DecidableEq

/-- A normalized map entry `{url, title}`. -/
structure MapEntry where
  url : String
  title : String
deriving DecidableEq

/-- Link normalization (bridge.py lines 327-332): a dict gives
`{url: href, title: text}`, a bare URL gives `{url: link, title: ""}`. -/
def normLink : LinkVal → MapEntry
  | .dict href text => ⟨href, text⟩
  | .bare u => ⟨u, ""⟩

/-- One streamed result as consumed by `map_action`: `internalLinks = none`
models a result without truthy link metadata (`hasattr(result, "links") and
result.links` false), `some l` the `result.links.get("internal", [])` list. -/
structure MapStreamResult where
  success : Bool
  internalLinks : Option (List LinkVal)
deriving DecidableEq

/-- The inner `for link in ...` loop (bridge.py lines 326-334): normalize each
link and append it iff its url is truthy and the entry is not already in the
accumulated list. -/
def appendLinks (links : List MapEntry) (newLinks : List LinkVal) :
    List MapEntry :=
  newLinks.foldl
    (fun acc link =>
      let entry := normLink link
      if entry.url ≠ "" ∧ entry ∉ acc then acc ++ [entry] else acc)
    links

/-- The `async for` loop of `map_action` (bridge.py lines 324-334): each
successful result with truthy link metadata contributes its internal links. -/
def collectLinks (stream : List MapStreamResult) : List MapEntry :=
  stream.foldl
    (fun links r =>
      match r.success, r.internalLinks with
      | true, some internal => appendLinks links internal
      | _, _ => links)
    []

/-- Boolean substring containment, embedding Python's `needle in haystack`. -/
def strContains (haystack needle : String) : Bool :=
  decide (needle.data <:+: haystack.data)

/-- `map_action` (bridge.py lines 304-346) as a function of the streamed
results: collect links, apply the optional case-insensitive search filter
(only when `search` is truthy and links non-empty), truncate to `limit`. -/
def map_action (stream : List MapStreamResult) (search : Option String)
    (limit : Nat) : List MapEntry :=
  let links := collectLinks stream
  let links :=
    match search with
    | some s =>
        if s ≠ "" ∧ links ≠ [] then
          links.filter (fun (l : MapEntry) =>
            strContains l.url.toLower s.toLower ||
            strContains l.title.toLower s.toLower)
        else links
    | none => links
  links.take limit

/-! ## Dispatcher (`main`, bridge.py lines 349-418) -/

/-- Data payload of a successful handler, as placed into the envelope. -/
inductive JVal where
  | jstr (s : String)
  | jsearch (rs : List SearchResult)
  | jcrawl (ps : List CrawlPage)
  | jmap (es : List MapEntry)
  | jobj
deriving DecidableEq

/-- Outcome of running an action handler: a returned value or a raised
exception with its `str(e)` message. -/
inductive HandlerOutcome where
  | ok (data : JVal)
  | exn (msg : String)
deriving DecidableEq

/-- The action names the `if`/`elif` chain of `main` recognizes. -/
def knownActions : List String :=
  ["debug", "fetch", "search", "extract", "screenshot", "crawl", "map"]

/-- The dispatcher's observable outcome: the envelope written to stdout and
the list of handlers invoked, in order. -/
structure DispatchResult where
  envelope : Envelope JVal
  invoked : List String
deriving DecidableEq

/-- `main` (bridge.py lines 349-418) as a function of the decode outcome and
of an oracle giving each handler's outcome. `decoded = .error msg` is a
`json.JSONDecodeError` with message `msg`; `.ok none` is a decoded request
whose `action` key is absent (`request.get("action")` returns `None`, which
the f-string renders as `"None"`); `.ok (some a)` carries the action string.
A known action runs its handler: a returned value is wrapped by
`respond(True, data)`, a raised exception by `respond(False, error=str(e))`;
an unknown action writes `respond(False, error=f"Unknown action: {action}")`
without invoking any handler. -/
def mainDispatch (decoded : Except String (Option String))
    (run : String → HandlerOutcome) : DispatchResult :=
  match decoded with
  | .error msg => ⟨respond false none (some ("Invalid JSON request: " ++ msg)), []⟩
  | .ok none => ⟨respond false none (some "Unknown action: None"), []⟩
  | .ok (some a) =>
      if a ∈ knownActions then
        match run a with
        | .ok d => ⟨respond true (some d) none, [a]⟩
        | .exn m => ⟨respond false none (some m), [a]⟩
      else ⟨respond false none (some ("Unknown action: " ++ a)), []⟩

/-! ## Spec-side definitions used by refinement statements -/

/-- First-seen deduplication of a list of entries starting from an
accumulator: an element already present is dropped, a new one is appended. -/
def dedupInto (acc : List MapEntry) (l : List MapEntry) : List MapEntry :=
  l.foldl (fun acc e => if e ∈ acc then acc else acc ++ [e]) acc

/-- First-seen deduplication by exact structural equality of entries. -/
def dedupFirstSeen (l : List MapEntry) : List MapEntry :=
  dedupInto [] l

/-- The collected entry stream of a map invocation: all internal links of
successful results that expose link metadata, normalized, entries with an
empty url removed, in stream order. -/
def streamEntries (stream : List MapStreamResult) : List MapEntry :=
  ((stream.map fun r =>
      match r.success, r.internalLinks with
      | true, some internal => internal.map normLink
      | _, _ => []).flatten).filter fun e => decide (e.url ≠ "")

/-! ## Helper lemmas -/

/-- If tier 1 is unconfigured or failed, its block falls through to tier 2. -/
theorem tier1Phase_fallthrough (searxngURL : String) (t1 : Tier1Outcome)
    (limit : Nat) (h : searxngURL = "" ∨ tier1Failure t1 limit) :
    ∃ acc, tier1Phase searxngURL t1 limit = .fallthrough acc := by
  by_cases hcfg : searxngURL = ""
  · exact ⟨[], by simp [tier1Phase, hcfg]⟩
  · rcases h with hcfg' | hfail
    · exact absurd hcfg' hcfg
    · rcases hfail with ⟨p, rfl⟩ | ⟨s, items, rfl, hs⟩ | ⟨items, rfl, hempty⟩
      · exact ⟨p.map normSearx, by simp [tier1Phase, hcfg]⟩
      · exact ⟨[], by simp [tier1Phase, hcfg, hs]⟩
      · exact ⟨[], by simp [tier1Phase, hcfg, hempty]⟩

/-- `"Unknown action: " ++ a` is never the empty string. -/
theorem unknown_msg_ne_empty (a : String) : "Unknown action: " ++ a ≠ "" := by
  intro h
  have hd : ("Unknown action: " ++ a).data = [] := by rw [h]
  rw [String.data_append] at hd
  simp at hd

/-! ## Claim theorems -/

/-- C1: for the search action, if the first-tier aggregator is configured and
its HTTP call returns status 200 with at least one normalizable result,
`search_action` returns those tier-1 results — each normalized to
`{url, title, snippet}` and limited to the first `limit` entries — and the
second-tier backend is never invoked (tier-2 attempt count 0); if tier 1 is
unconfigured, tier 2 is invoked exactly once. -/
theorem search_tier1_short_circuit (searxngURL : String) (t1 : Tier1Outcome)
    (t2 : Tier2Outcome) (limit : Nat) (items : List SearxItem) :
    (searxngURL ≠ "" → t1 = .resp 200 items → items.take limit ≠ [] →
      search_action searxngURL t1 t2 limit
        = (.ok ((items.take limit).map normSearx), 0))
    ∧ (searxngURL = "" → (search_action searxngURL t1 t2 limit).2 = 1) := by
  constructor
  · intro hu ht hne
    subst ht
    have hne' : ¬(limit = 0 ∨ items = []) := by
      simpa [List.take_eq_nil_iff] using hne
    have hphase : tier1Phase searxngURL (.resp 200 items) limit
        = .ret ((items.take limit).map normSearx) := by
      simp [tier1Phase, hu, List.isEmpty_iff, List.take_eq_nil_iff, hne']
    simp [search_action, hphase]
  · intro hu
    have hacc : tier1Phase searxngURL t1 limit = .fallthrough [] := by
      simp [tier1Phase, hu]
    simp only [search_action, hacc]
    cases t2 <;> rfl

/-- Witness for C1 at concrete inputs: configured tier 1 with one 200-status
result short-circuits tier 2; unconfigured tier 1 attempts tier 2 once. -/
theorem search_tier1_short_circuit_witness :
    search_action "http://sx" (.resp 200 [⟨"u", "t", "c"⟩]) .exn 10
      = (.ok [⟨"u", "t", "c"⟩], 0)
    ∧ (search_action "" (.resp 200 [⟨"u", "t", "c"⟩]) .exn 10).2 = 1 := by
  have h := search_tier1_short_circuit "http://sx" (.resp 200 [⟨"u", "t", "c"⟩])
    .exn 10 [⟨"u", "t", "c"⟩]
  have h2 := search_tier1_short_circuit "" (.resp 200 [⟨"u", "t", "c"⟩])
    .exn 10 [⟨"u", "t", "c"⟩]
  exact ⟨h.1 (by decide) rfl (by decide), h2.2 rfl⟩

/-- C2: with tier 1 configured, any tier-1 failure — an exception (transport
errors included), a non-200 status, or a 200 response whose normalized result
set is empty — never aborts the call: tier 2 is invoked, and the overall call
succeeds whenever tier 2 succeeds. -/
theorem search_failure_isolation (searxngURL : String) (t1 : Tier1Outcome)
    (t2 : Tier2Outcome) (limit : Nat) (hcfg : searxngURL ≠ "")
    (hfail : tier1Failure t1 limit) :
    (search_action searxngURL t1 t2 limit).2 = 1
    ∧ ∀ items, t2 = .ok items →
        ∃ rs, (search_action searxngURL t1 t2 limit).1 = .ok rs := by
  obtain ⟨acc, hacc⟩ := tier1Phase_fallthrough searxngURL t1 limit (Or.inr hfail)
  constructor
  · simp only [search_action, hacc]
    cases t2 <;> rfl
  · intro items ht2
    subst ht2
    exact ⟨acc ++ items.map normDdg, by simp [search_action, hacc]⟩

/-- Witness for C2: a configured tier 1 answering 500 falls through and the
call succeeds on tier 2's results. -/
theorem search_failure_isolation_witness :
    (search_action "http://sx" (.resp 500 []) (.ok [⟨"h", "t", "b"⟩]) 10).2 = 1
    ∧ ∃ rs, (search_action "http://sx" (.resp 500 [])
        (.ok [⟨"h", "t", "b"⟩]) 10).1 = .ok rs := by
  have h := search_failure_isolation "http://sx" (.resp 500 [])
    (.ok [⟨"h", "t", "b"⟩]) 10 (by decide)
    (Or.inr (Or.inl ⟨500, [], rfl, by decide⟩))
  exact ⟨h.1, h.2 [⟨"h", "t", "b"⟩] rfl⟩

/-- C8: when tier 1 yields no results (unconfigured, failed, or empty) and
tier 2 raises, `search_action` fails with `searchErrorMsg`, whose text
mentions "search backends" and suggests configuring the first-tier
`SEARXNG_URL` endpoint. -/
theorem search_both_tiers_fail (searxngURL : String) (t1 : Tier1Outcome)
    (limit : Nat) (h : searxngURL = "" ∨ tier1Failure t1 limit) :
    (search_action searxngURL t1 .exn limit).1 = .error searchErrorMsg
    ∧ strContains searchErrorMsg "search backends" = true
    ∧ strContains searchErrorMsg "SEARXNG_URL" = true := by
  obtain ⟨acc, hacc⟩ := tier1Phase_fallthrough searxngURL t1 limit h
  exact ⟨by simp [search_action, hacc], by decide, by decide⟩

/-- Witness for C8: unconfigured tier 1 plus a raising tier 2 produce the
"All search backends failed" error. -/
theorem search_both_tiers_fail_witness :
    (search_action "" (.resp 200 []) .exn 10).1 = .error searchErrorMsg
    ∧ strContains searchErrorMsg "search backends" = true
    ∧ strContains searchErrorMsg "SEARXNG_URL" = true :=
  search_both_tiers_fail "" (.resp 200 []) 10 (Or.inl rfl)

/-- C4 counterexample: with format "markdown" and a successful engine result
supplying both representations (raw "# raw", cleaned "# cleaned"),
`fetch_action` returns the raw representation and NOT the cleaned one. -/
theorem fetch_markdown_counterexample :
    fetch_action ⟨true, "", "h", "rh", .objMd "# raw" "# cleaned"⟩ "markdown"
      = .ok "# raw"
    ∧ fetch_action ⟨true, "", "h", "rh", .objMd "# raw" "# cleaned"⟩ "markdown"
      ≠ .ok "# cleaned" := by
  refine ⟨rfl, fun h => ?_⟩
  exact absurd (Except.ok.inj h) (by decide)

/-- C4 amended: for format outside {html, raw} on a successful engine result
whose markdown object supplies both a raw and a cleaned representation,
`fetch_action` returns the engine's RAW markdown representation
(`raw_markdown`), not the cleaned one. -/
theorem fetch_markdown_amended (result : EngineResult) (format : String)
    (raw cleaned : String) (h1 : format ≠ "html") (h2 : format ≠ "raw")
    (hs : result.success = true) (hmd : result.markdown = .objMd raw cleaned) :
    fetch_action result format = .ok raw := by
  simp [fetch_action, hs, h1, h2, hmd, mdNormalize]

/-- Witness for the amended C4 at a concrete engine result. -/
theorem fetch_markdown_amended_witness :
    fetch_action ⟨true, "", "h", "rh", .objMd "# raw" "# cleaned"⟩ "markdown"
      = .ok "# raw" :=
  fetch_markdown_amended ⟨true, "", "h", "rh", .objMd "# raw" "# cleaned"⟩
    "markdown" "# raw" "# cleaned" (by decide) (by decide) rfl rfl

/-- C6: a map request with limit 2 against an engine yielding internal links
/a:"A", /a:"A", /b:"B", /c:"C" returns exactly [/a:"A", /b:"B"] — identical
normalized entries are deduplicated first-occurrence-wins and the final list
is truncated to the limit. -/
theorem map_scenario_limit2 :
    map_action
      [⟨true, some [.dict "/a" "A", .dict "/a" "A", .dict "/b" "B",
        .dict "/c" "C"]⟩] none 2
      = [⟨"/a", "A"⟩, ⟨"/b", "B"⟩] := by decide

/-- C7: a decoded request whose action is not one of the seven known names
gets an error envelope whose text is exactly "Unknown action: <action>" and
no handler is invoked; a request without an action key (`None`) likewise gets
"Unknown action: None". -/
theorem unknown_action_dispatch (a : String) (run : String → HandlerOutcome)
    (h : a ∉ knownActions) :
    mainDispatch (.ok (some a)) run
      = ⟨⟨false, none, some ("Unknown action: " ++ a)⟩, []⟩
    ∧ mainDispatch (.ok none) run
      = ⟨⟨false, none, some "Unknown action: None"⟩, []⟩ := by
  constructor
  · simp [mainDispatch, h, respond, unknown_msg_ne_empty a]
  · simp [mainDispatch, respond]

/-- Witness for C7 at the concrete unknown action "frobnicate". -/
theorem unknown_action_dispatch_witness :
    mainDispatch (.ok (some "frobnicate")) (fun _ => .ok .jobj)
      = ⟨⟨false, none, some "Unknown action: frobnicate"⟩, []⟩
    ∧ mainDispatch (.ok none) (fun _ => .ok .jobj)
      = ⟨⟨false, none, some "Unknown action: None"⟩, []⟩ :=
  unknown_action_dispatch "frobnicate" (fun _ => .ok .jobj) (by decide)

/-- C9: every envelope the dispatcher emits — over all decode outcomes,
actions and handler outcomes — has at most one of `data`/`error` present,
never both. -/
theorem envelope_exclusivity (decoded : Except String (Option String))
    (run : String → HandlerOutcome) :
    ((mainDispatch decoded run).envelope.data.isSome
      && (mainDispatch decoded run).envelope.error.isSome) = false := by
  rcases decoded with msg | action
  · simp [mainDispatch, respond]
  · rcases action with _ | a
    · simp [mainDispatch, respond]
    · by_cases h : a ∈ knownActions
      · rcases hr : run a with d | m
        · simp [mainDispatch, h, hr, respond]
        · simp only [mainDispatch, h, if_true, hr, respond]
          split <;> simp
      · simp [mainDispatch, h, respond]

/-- C10: when a known action's handler raises an exception whose string
representation is empty, the emitted envelope is `{"success": false}` with
neither a `data` nor an `error` field. -/
theorem empty_error_envelope (a : String) (run : String → HandlerOutcome)
    (h : a ∈ knownActions) (hrun : run a = .exn "") :
    (mainDispatch (.ok (some a)) run).envelope = ⟨false, none, none⟩ := by
  simp [mainDispatch, h, hrun, respond]

/-- Witness for C10: the fetch handler raising an empty-message exception. -/
theorem empty_error_envelope_witness :
    (mainDispatch (.ok (some "fetch")) (fun _ => .exn "")).envelope
      = ⟨false, none, none⟩ :=
  empty_error_envelope "fetch" (fun _ => .exn "") (by decide) rfl

/-- If fewer pages than `max_pages` are accumulated, the crawl loop never
returns more than `max_pages` pages. -/
theorem crawlLoop_length_le (max_pages : Nat) (stream : List CrawlResult)
    (pages : List CrawlPage) (h : pages.length < max_pages) :
    (crawlLoop max_pages stream pages).1.length ≤ max_pages := by
  induction stream generalizing pages with
  | nil => simpa [crawlLoop] using Nat.le_of_lt h
  | cons r rest ih =>
      simp only [crawlLoop]
      split
      · split
        · simp only [List.length_append, List.length_cons, List.length_nil]
          omega
        · next hn =>
            refine ih _ ?_
            simp only [List.length_append, List.length_cons,
              List.length_nil] at hn ⊢
            omega
      · exact ih _ h

/-- Failed stream items are skipped without effect: the pages collected from
a stream equal those collected from its success-only filtration. -/
theorem crawlLoop_filter (max_pages : Nat) (stream : List CrawlResult)
    (pages : List CrawlPage) :
    (crawlLoop max_pages stream pages).1
      = (crawlLoop max_pages (stream.filter fun r => r.success) pages).1 := by
  induction stream generalizing pages with
  | nil => rfl
  | cons r rest ih =>
      by_cases hr : r.success = true
      · simp only [crawlLoop, List.filter_cons, hr, if_true]
        split
        · rfl
        · exact ih _
      · simp only [crawlLoop, List.filter_cons, hr, if_false,
          Bool.false_eq_true]
        exact ih _

/-- Early termination of the crawl loop: if the ceiling lies strictly above
the pages already accumulated but within reach of the successful items of a
prefix, the loop stops inside that prefix — whatever follows it is never
consumed and never affects the result. -/
theorem crawlLoop_append_stop (max_pages : Nat) (pre post : List CrawlResult)
    (acc : List CrawlPage)
    (hreach : max_pages ≤ acc.length + (pre.filter fun r => r.success).length)
    (hlt : acc.length < max_pages) :
    crawlLoop max_pages (pre ++ post) acc = crawlLoop max_pages pre acc := by
  induction pre generalizing acc with
  | nil =>
      simp only [List.filter_nil, List.length_nil, Nat.add_zero] at hreach
      omega
  | cons r rest ih =>
      by_cases hr : r.success = true
      · simp only [List.cons_append, crawlLoop, hr, if_true, List.append_eq]
        by_cases hstop :
            max_pages ≤ (acc ++ [(⟨r.url, mdNormalize r.markdown⟩ : CrawlPage)]).length
        · rw [if_pos hstop, if_pos hstop]
        · rw [if_neg hstop]
          rw [if_neg hstop]
          have harec := ih (acc ++ [(⟨r.url, mdNormalize r.markdown⟩ : CrawlPage)])
            (by
              simp only [List.filter_cons, hr, if_true, List.length_cons,
                List.length_append, List.length_nil] at hreach ⊢
              omega)
            (by
              simp only [List.length_append, List.length_cons,
                List.length_nil] at hstop ⊢
              omega)
          rw [harec]
      · simp only [List.cons_append, crawlLoop, hr, if_false,
          Bool.false_eq_true, List.append_eq]
        have harec := ih acc
          (by
            simp only [List.filter_cons, hr, Bool.false_eq_true,
              if_false] at hreach ⊢
            omega)
          hlt
        rw [harec]

/-- C3 counterexample: with `max_pages = 0` and a stream holding one
successful page, `crawl_action` returns one entry — strictly more than the
claimed `max_pages` ceiling of 0, and the one stream item is consumed even
though the accumulated count had already reached `max_pages` — because the
ceiling `len(pages) >= max_pages` is only checked after a page has been
appended. -/
theorem crawl_ceiling_counterexample :
    (crawl_action [⟨true, "u", .strMd "m"⟩] 0).1.length = 1
    ∧ (crawl_action [⟨true, "u", .strMd "m"⟩] 0).2 = 1 := by decide

/-- C3 amended: for `max_pages ≥ 1`, `crawl_action` returns at most
`max_pages` entries, and consumption of the stream stops as soon as the
accumulated page count reaches `max_pages`: past any prefix already holding
`max_pages` successful pages, the rest of the stream is never consumed and
never affects the result (in particular, for `max_pages = 3` and a stream of
5 successful pages, exactly the first 3 pages are returned and exactly 3
stream items are consumed — the 4th is never consumed); failed pages are
skipped and never counted (the pages equal those of the success-filtered
stream). The `max_pages ≥ 1` restriction is forced by the counterexample:
the ceiling is checked only after an append. -/
theorem crawl_ceiling_amended (stream : List CrawlResult) (max_pages : Nat) :
    (1 ≤ max_pages → (crawl_action stream max_pages).1.length ≤ max_pages)
    ∧ (crawl_action stream max_pages).1
        = (crawl_action (stream.filter fun r => r.success) max_pages).1
    ∧ (∀ pre post : List CrawlResult, 1 ≤ max_pages →
        max_pages ≤ (pre.filter fun r => r.success).length →
        crawl_action (pre ++ post) max_pages = crawl_action pre max_pages)
    ∧ ∀ r1 r2 r3 r4 r5 : CrawlResult,
        r1.success = true → r2.success = true → r3.success = true →
        r4.success = true → r5.success = true →
        crawl_action [r1, r2, r3, r4, r5] 3
          = ([⟨r1.url, mdNormalize r1.markdown⟩,
              ⟨r2.url, mdNormalize r2.markdown⟩,
              ⟨r3.url, mdNormalize r3.markdown⟩], 3) := by
  refine ⟨fun h => crawlLoop_length_le max_pages stream [] (by simpa using h),
    crawlLoop_filter max_pages stream [], ?_, ?_⟩
  · intro pre post h1 hreach
    exact crawlLoop_append_stop max_pages pre post []
      (by simpa using hreach) (by simpa using h1)
  · intro r1 r2 r3 r4 r5 h1 h2 h3 h4 h5
    simp [crawl_action, crawlLoop, h1, h2, h3, h4, h5]

/-- Witness for the amended C3: a 5-page all-successful stream with
`max_pages = 3` yields the first three pages with three items consumed, and
appending anything after a prefix holding 3 successful pages changes
nothing. -/
theorem crawl_ceiling_amended_witness :
    (1 ≤ 3 → (crawl_action [⟨true, "1", .strMd "a"⟩, ⟨true, "2", .strMd "b"⟩,
        ⟨true, "3", .strMd "c"⟩, ⟨true, "4", .strMd "d"⟩,
        ⟨true, "5", .strMd "e"⟩] 3).1.length ≤ 3)
    ∧ crawl_action ([⟨true, "1", .strMd "a"⟩, ⟨true, "2", .strMd "b"⟩,
        ⟨true, "3", .strMd "c"⟩]
          ++ [⟨true, "4", .strMd "d"⟩, ⟨true, "5", .strMd "e"⟩]) 3
        = crawl_action [⟨true, "1", .strMd "a"⟩, ⟨true, "2", .strMd "b"⟩,
            ⟨true, "3", .strMd "c"⟩] 3
    ∧ crawl_action [⟨true, "1", .strMd "a"⟩, ⟨true, "2", .strMd "b"⟩,
        ⟨true, "3", .strMd "c"⟩, ⟨true, "4", .strMd "d"⟩,
        ⟨true, "5", .strMd "e"⟩] 3
        = ([⟨"1", "a"⟩, ⟨"2", "b"⟩, ⟨"3", "c"⟩], 3) := by
  have h := crawl_ceiling_amended [⟨true, "1", .strMd "a"⟩,
    ⟨true, "2", .strMd "b"⟩, ⟨true, "3", .strMd "c"⟩,
    ⟨true, "4", .strMd "d"⟩, ⟨true, "5", .strMd "e"⟩] 3
  refine ⟨h.1, ?_, h.2.2.2 ⟨true, "1", .strMd "a"⟩ ⟨true, "2", .strMd "b"⟩
    ⟨true, "3", .strMd "c"⟩ ⟨true, "4", .strMd "d"⟩ ⟨true, "5", .strMd "e"⟩
    rfl rfl rfl rfl rfl⟩
  exact (crawl_ceiling_amended [⟨true, "1", .strMd "a"⟩,
      ⟨true, "2", .strMd "b"⟩, ⟨true, "3", .strMd "c"⟩] 3).2.2.1
    [⟨true, "1", .strMd "a"⟩, ⟨true, "2", .strMd "b"⟩, ⟨true, "3", .strMd "c"⟩]
    [⟨true, "4", .strMd "d"⟩, ⟨true, "5", .strMd "e"⟩]
    (by decide) (by decide)

/-- Unfolding of one step of the inner map loop. -/
theorem appendLinks_cons (acc : List MapEntry) (link : LinkVal)
    (rest : List LinkVal) :
    appendLinks acc (link :: rest)
      = appendLinks
          (if (normLink link).url ≠ "" ∧ normLink link ∉ acc
            then acc ++ [normLink link] else acc) rest := rfl

/-- Unfolding of one step of first-seen deduplication. -/
theorem dedupInto_cons (acc : List MapEntry) (e : MapEntry)
    (rest : List MapEntry) :
    dedupInto acc (e :: rest)
      = dedupInto (if e ∈ acc then acc else acc ++ [e]) rest := rfl

/-- First-seen deduplication splits over list append. -/
theorem dedupInto_append (acc : List MapEntry) (l1 l2 : List MapEntry) :
    dedupInto acc (l1 ++ l2) = dedupInto (dedupInto acc l1) l2 := by
  simp [dedupInto, List.foldl_append]

/-- The inner map loop equals first-seen dedup of the normalized links with
empty urls removed. -/
theorem appendLinks_eq_dedupInto (l : List LinkVal) (acc : List MapEntry) :
    appendLinks acc l
      = dedupInto acc
          ((l.map normLink).filter fun e => decide (e.url ≠ "")) := by
  induction l generalizing acc with
  | nil => rfl
  | cons link rest ih =>
      rw [appendLinks_cons]
      by_cases hurl : (normLink link).url = ""
      · rw [if_neg (by simp [hurl])]
        have hf : ((link :: rest).map normLink).filter
              (fun e => decide (e.url ≠ ""))
            = (rest.map normLink).filter (fun e => decide (e.url ≠ "")) := by
          simp [List.filter_cons, hurl]
        rw [hf]
        exact ih acc
      · have hf : ((link :: rest).map normLink).filter
              (fun e => decide (e.url ≠ ""))
            = normLink link
              :: (rest.map normLink).filter (fun e => decide (e.url ≠ "")) := by
          simp [List.filter_cons, hurl]
        by_cases hmem : normLink link ∈ acc
        · rw [if_neg (by simp [hmem]), hf, dedupInto_cons, if_pos hmem]
          exact ih acc
        · rw [if_pos ⟨hurl, hmem⟩, hf, dedupInto_cons, if_neg hmem]
          exact ih _

/-- `streamEntries` splits over one streamed result. -/
theorem streamEntries_cons (r : MapStreamResult)
    (rest : List MapStreamResult) :
    streamEntries (r :: rest)
      = ((match r.success, r.internalLinks with
          | true, some internal => internal.map normLink
          | _, _ => []).filter fun e => decide (e.url ≠ ""))
        ++ streamEntries rest := by
  simp [streamEntries, List.filter_append]

/-- The outer map loop, from any accumulator, equals first-seen dedup of the
collected entry stream. -/
theorem collect_foldl_eq (stream : List MapStreamResult)
    (acc : List MapEntry) :
    stream.foldl
      (fun links r =>
        match r.success, r.internalLinks with
        | true, some internal => appendLinks links internal
        | _, _ => links) acc
      = dedupInto acc (streamEntries stream) := by
  induction stream generalizing acc with
  | nil => rfl
  | cons r rest ih =>
      obtain ⟨rs, rl⟩ := r
      rw [List.foldl_cons, streamEntries_cons, dedupInto_append]
      cases rs with
      | false => cases rl <;> exact ih acc
      | true =>
          cases rl with
          | none => exact ih acc
          | some internal =>
              exact (ih (appendLinks acc internal)).trans
                (congrArg (fun x => dedupInto x (streamEntries rest))
                  (appendLinks_eq_dedupInto internal acc))

/-- First-seen deduplication from a duplicate-free accumulator yields a
duplicate-free list. -/
theorem dedupInto_nodup (l : List MapEntry) (acc : List MapEntry)
    (h : acc.Nodup) : (dedupInto acc l).Nodup := by
  induction l generalizing acc with
  | nil => exact h
  | cons e rest ih =>
      rw [dedupInto_cons]
      by_cases hmem : e ∈ acc
      · rw [if_pos hmem]
        exact ih acc h
      · rw [if_neg hmem]
        refine ih _ ?_
        simp [List.nodup_append, h, hmem]

/-- C5 counterexample: two collected links whose normalized URLs are equal
but whose titles differ are BOTH present in the output — dedup is not by url
equality alone. -/
theorem map_url_dedup_counterexample :
    map_action [⟨true, some [.dict "/a" "A", .dict "/a" "B"]⟩] none 100
      = [⟨"/a", "A"⟩, ⟨"/a", "B"⟩]
    ∧ (map_action [⟨true, some [.dict "/a" "A", .dict "/a" "B"]⟩]
        none 100).map MapEntry.url = ["/a", "/a"] := by decide

/-- C5 amended: map results are deduplicated by exact structural equality of
the whole normalized `{url, title}` entry, not by url alone — two links with
equal URLs but different titles are distinct entries and both appear. With no
search filter the output is the first-seen-order deduplication of the
collected entry stream truncated to `limit`, and for every search filter the
output never repeats an entry. -/
theorem map_entry_dedup_amended (stream : List MapStreamResult)
    (search : Option String) (limit : Nat) :
    map_action stream none limit
      = (dedupFirstSeen (streamEntries stream)).take limit
    ∧ (map_action stream search limit).Nodup := by
  have hcoll : collectLinks stream = dedupFirstSeen (streamEntries stream) :=
    collect_foldl_eq stream []
  have hnd : (collectLinks stream).Nodup := by
    rw [hcoll]
    exact dedupInto_nodup _ [] List.nodup_nil
  constructor
  · simp only [map_action, hcoll]
  · rcases search with _ | s
    · simp only [map_action]
      exact hnd.sublist (List.take_sublist limit _)
    · simp only [map_action]
      split
      · exact hnd.sublist
          ((List.take_sublist limit _).trans (List.filter_sublist _))
      · exact hnd.sublist (List.take_sublist limit _)

end Bridge
